import Mathlib

/-!
# Verification of the `finance-tracker` expense manager (`src/main.py`)

Shallow embedding of the `Expense` entity and the `ExpenseTracker` component.

Modelling conventions:
* Python floats are modelled as `Rat` (the claims concern which amounts are
  summed and compared, not floating-point rounding).
* Python `datetime.now()` is nondeterministic, so the current date (a
  `DD-MM-YYYY` string) and the current year (an integer) are passed as
  explicit parameters `today` / `currentYear` to the operations that read
  the clock.
* The persisted JSON file is modelled by `FileContent`: either absent,
  syntactically malformed, or a parsed list of record dictionaries
  (`RawDict`, whose fields are `Option`s so that a key may be missing).
* Exceptions are modelled with `Except PyErr`; stateful methods return the
  resulting tracker state alongside the outcome, so that in-memory state
  after a raised exception stays observable (Python objects survive an
  exception).
-/

namespace FinanceTracker

/-- Exceptions the tracker code can raise: `ValueError("Amount must be
positive.")` from the amount checks, and the `ValueError` raised by
`datetime.strptime` on a string that does not match `%d-%m-%Y`. -/
inductive PyErr where
  | invalidAmount
  | strptimeValueError
deriving DecidableEq, Repr

/-- Embeds `class Expense` (`src/main.py:10-16`): id, title, description, amount and
a `DD-MM-YYYY` date string. -/
structure Expense where
  id : Int
  title : String
  description : String
  amount : Rat
  date : String
deriving DecidableEq, Repr

/-- Python `date or <default>`: `None` and the empty string are falsy, any
other string is truthy. -/
def pyStrOr (date : Option String) (alt : String) : String :=
  match date with
  | none => alt
  | some s => if s = "" then alt else s

/-- Embeds `Expense.__init__` (`src/main.py:11-16`): stores the fields;
`self.date = date or datetime.now().strftime("%d-%m-%Y")`. `today` stands
for `datetime.now().strftime("%d-%m-%Y")`. -/
def Expense.init (today : String) (id : Int) (title description : String)
    (amount : Rat) (date : Option String) : Expense :=
  { id := id, title := title, description := description, amount := amount,
    date := pyStrOr date today }

/-- One record dictionary of the persisted JSON file. Each field is an
`Option` so that a stored record may be missing a key (`KeyError` on
access). -/
structure RawDict where
  id : Option Int
  title : Option String
  description : Option String
  amount : Option Rat
  date : Option String
deriving DecidableEq, Repr

/-- Embeds `Expense.to_dict` (`src/main.py:18-25`): all five keys present. -/
def Expense.to_dict (e : Expense) : RawDict :=
  { id := some e.id, title := some e.title, description := some e.description,
    amount := some e.amount, date := some e.date }

/-- Embeds `Expense.from_dict` (`src/main.py:26-34`): reads the five keys
(`KeyError`, modelled as `none`, if one is absent) and calls the
constructor, whose `date or now()` default applies. -/
def Expense.from_dict (today : String) (d : RawDict) : Option Expense :=
  match d.id, d.title, d.description, d.amount, d.date with
  | some i, some t, some de, some a, some dt =>
      some (Expense.init today i t de a (some dt))
  | _, _, _, _, _ => none

/-- The persisted file: absent, syntactically invalid JSON, or a parsed
list of record dictionaries. -/
inductive FileContent where
  | missing
  | malformed
  | records (ds : List RawDict)
deriving DecidableEq, Repr

/-- Embeds `ExpenseTracker` state: the in-memory ordered collection plus the
contents of the backing file. -/
structure Tracker where
  expenses : List Expense
  file : FileContent
deriving DecidableEq, Repr

/-- The list comprehension `[Expense.from_dict(d) for d in data]`: decodes
the record dictionaries left to right; the first `KeyError` (a `none` from
`Expense.from_dict`) aborts the whole comprehension. -/
def decodeAll (today : String) : List RawDict → Option (List Expense)
  | [] => some []
  | d :: ds =>
      match Expense.from_dict today d, decodeAll today ds with
      | some e, some es => some (e :: es)
      | _, _ => none

/-- Embeds `ExpenseTracker.load_expenses` (`src/main.py:41-49`): missing file gives
`[]`; `json.JSONDecodeError` and `KeyError` are both caught and give `[]`;
otherwise every record dictionary is decoded with `Expense.from_dict`. -/
def load_expenses (today : String) (file : FileContent) : List Expense :=
  match file with
  | .missing => []
  | .malformed => []
  | .records ds =>
      match decodeAll today ds with
      | some es => es
      | none => []

/-- Embeds `ExpenseTracker.save_expenses` (`src/main.py:51-54`): overwrites the
backing file with the serialized current collection. -/
def save_expenses (t : Tracker) : Tracker :=
  { t with file := .records (t.expenses.map Expense.to_dict) }

/-- Embeds `ExpenseTracker.get_next_id` (`src/main.py:56-59`): `1` on an empty
collection, else `max(expense.id ...) + 1`. -/
def get_next_id (es : List Expense) : Int :=
  match es with
  | [] => 1
  | e :: rest => (rest.foldl (fun m x => max m x.id) e.id) + 1

/-- Embeds `ExpenseTracker.add_expense` (`src/main.py:61-74`): raises
`ValueError` when `amount <= 0` before touching any state; otherwise
builds the record with a fresh id and the current date, appends it, saves,
and returns it. -/
def add_expense (today : String) (t : Tracker) (title description : String)
    (amount : Rat) : Except PyErr Expense × Tracker :=
  if amount ≤ 0 then
    (.error .invalidAmount, t)
  else
    let e := Expense.init today (get_next_id t.expenses) title description
      amount none
    let t' := save_expenses { t with expenses := t.expenses ++ [e] }
    (.ok e, t')

/-- The `for i, expense in enumerate(...)` scan of `delete_expense`: remove
the first record whose id matches, `none` when there is none. -/
def deleteFirst (eid : Int) : List Expense → Option (List Expense)
  | [] => none
  | e :: rest =>
      if e.id = eid then some rest
      else (deleteFirst eid rest).map (e :: ·)

/-- Embeds `ExpenseTracker.delete_expense` (`src/main.py:76-83`): delete the first
matching record and save, returning `true`; `false` and no change when the
id is absent. -/
def delete_expense (t : Tracker) (eid : Int) : Bool × Tracker :=
  match deleteFirst eid t.expenses with
  | some es => (true, save_expenses { t with expenses := es })
  | none => (false, t)

/-- The in-place field assignments of `update_expense` that happen before
the amount check: `expense.title = title` / `expense.description =
description`, each only when the argument `is not None`. -/
def applyTitleDescription (title description : Option String)
    (e : Expense) : Expense :=
  let e1 := match title with
    | some s => { e with title := s }
    | none => e
  match description with
  | some s => { e1 with description := s }
  | none => e1

/-- The `for expense in self.expenses` loop body of `update_expense`
(`src/main.py:86-99`): the first matching record gets title and description
assigned in place, then the amount is validated (raising, with the earlier
assignments kept) and assigned. Returns the outcome together with the
mutated collection. -/
def updateLoop (eid : Int) (title description : Option String)
    (amount : Option Rat) : List Expense → Except PyErr Bool × List Expense
  | [] => (.ok false, [])
  | e :: rest =>
      if e.id = eid then
        let e2 := applyTitleDescription title description e
        match amount with
        | some a =>
            if a ≤ 0 then (.error .invalidAmount, e2 :: rest)
            else (.ok true, { e2 with amount := a } :: rest)
        | none => (.ok true, e2 :: rest)
      else
        let r := updateLoop eid title description amount rest
        (r.1, e :: r.2)

/-- Embeds `ExpenseTracker.update_expense` (`src/main.py:85-99`): runs the loop;
`save_expenses` is called only on the `return True` path, so neither a
raised `ValueError` nor a missing id touches the file. -/
def update_expense (t : Tracker) (eid : Int) (title description : Option String)
    (amount : Option Rat) : Except PyErr Bool × Tracker :=
  let r := updateLoop eid title description amount t.expenses
  match r.1 with
  | .ok true => (.ok true, save_expenses { t with expenses := r.2 })
  | .ok false => (.ok false, { t with expenses := r.2 })
  | .error err => (.error err, { t with expenses := r.2 })

/-- Embeds `ExpenseTracker.list_expenses` (`src/main.py:101-102`). -/
def list_expenses (t : Tracker) : List Expense :=
  t.expenses

/-- A parsed calendar date, the result of
`datetime.strptime(s, "%d-%m-%Y")`. -/
structure Date where
  day : Nat
  month : Nat
  year : Nat
deriving DecidableEq, Repr

/-- Split a character list on `-` (the separators of `%d-%m-%Y`). -/
def splitDash (cur : List Char) : List Char → List (List Char)
  | [] => [cur.reverse]
  | c :: rest =>
      if c = '-' then cur.reverse :: splitDash [] rest
      else splitDash (c :: cur) rest

/-- Numeric value of a digit character. -/
def digitVal (c : Char) : Nat :=
  c.toNat - 48

/-- A character in `1`-`9` (the `[1-9]` classes of the `_strptime`
regexes). -/
def isDigit19 (c : Char) : Bool :=
  '1' ≤ c && c ≤ '9'

/-- The `%d` field of CPython `_strptime`, whose regex is
`3[01]|[12]\d|0[1-9]|[1-9]| [1-9]`: a two-digit value `01`-`31`, a single
digit `1`-`9`, or a space-padded digit `1`-`9`.  The field must consume the
whole dash-free segment, since the next format character is `-` (or the
end of the string). -/
def fieldDay : List Char → Option Nat
  | [c] => if isDigit19 c then some (digitVal c) else none
  | [' ', c] => if isDigit19 c then some (digitVal c) else none
  | [c1, c2] =>
      if c1.isDigit ∧ c2.isDigit ∧ 1 ≤ 10 * digitVal c1 + digitVal c2
          ∧ 10 * digitVal c1 + digitVal c2 ≤ 31 then
        some (10 * digitVal c1 + digitVal c2)
      else none
  | _ => none

/-- The `%m` field of CPython `_strptime`, whose regex is
`1[0-2]|0[1-9]|[1-9]`: a two-digit value `01`-`12` or a single digit
`1`-`9`. -/
def fieldMonth : List Char → Option Nat
  | [c] => if isDigit19 c then some (digitVal c) else none
  | [c1, c2] =>
      if c1.isDigit ∧ c2.isDigit ∧ 1 ≤ 10 * digitVal c1 + digitVal c2
          ∧ 10 * digitVal c1 + digitVal c2 ≤ 12 then
        some (10 * digitVal c1 + digitVal c2)
      else none
  | _ => none

/-- The `%Y` field of CPython `_strptime`, whose regex is exactly four
digits. -/
def fieldYear : List Char → Option Nat
  | [c1, c2, c3, c4] =>
      if c1.isDigit ∧ c2.isDigit ∧ c3.isDigit ∧ c4.isDigit then
        some (1000 * digitVal c1 + 100 * digitVal c2 + 10 * digitVal c3
          + digitVal c4)
      else none
  | _ => none

/-- Gregorian leap-year rule used by `datetime`. -/
def isLeap (y : Nat) : Bool :=
  (y % 4 == 0 && y % 100 != 0) || (y % 400 == 0)

/-- Length of a month, as `datetime` validates days. -/
def daysInMonth (y m : Nat) : Nat :=
  if m = 2 then (if isLeap y then 29 else 28)
  else if m = 4 ∨ m = 6 ∨ m = 9 ∨ m = 11 then 30
  else 31

/-- Embeds `datetime.strptime(s, "%d-%m-%Y")`: the `%d` field, `-`, the
`%m` field, `-`, the `%Y` field, end of string (the `_strptime` match must
cover the whole input, else "unconverted data remains"); then the
`datetime` constructor's range checks (year 1-9999, month 1-12, day within
the month).  Since none of the three field regexes can match a `-`, the
match succeeds exactly when the input splits on `-` into three segments
each wholly matched by its field.  `none` models the raised
`ValueError`. -/
def strptimeDMY (s : String) : Option Date :=
  match splitDash [] s.toList with
  | [ds, ms, ys] =>
      match fieldDay ds, fieldMonth ms, fieldYear ys with
      | some d, some m, some y =>
          if 1 ≤ m ∧ m ≤ 12 ∧ 1 ≤ d ∧ d ≤ daysInMonth y m ∧ 1 ≤ y ∧ y ≤ 9999
          then some { day := d, month := m, year := y }
          else none
      | _, _, _ => none
  | _ => none

/-- Python `expense_date == current_year` where `expense_date` is a
`datetime` and `current_year` an `int`: equality between unrelated types —
both `__eq__` methods return `NotImplemented`, so `==` is `False`, for
every pair of values. -/
def pyEqDatetimeInt (_d : Date) (_y : Int) : Bool :=
  false

/-- The `for expense in self.expenses` loop of `get_total_expenses`
(`src/main.py:108-114`) with its running total: every record's date is
parsed first (propagating the `ValueError`); with no month the amount is
always added, with a month it is added only when
`expense_date.month == month and expense_date == current_year`. -/
def totalLoop (currentYear : Int) (month : Option Int) :
    List Expense → Rat → Except PyErr Rat
  | [], total => .ok total
  | e :: rest, total =>
      match strptimeDMY e.date with
      | none => .error .strptimeValueError
      | some d =>
          match month with
          | none => totalLoop currentYear none rest (total + e.amount)
          | some m =>
              if ((d.month : Int) == m) && pyEqDatetimeInt d currentYear then
                totalLoop currentYear (some m) rest (total + e.amount)
              else
                totalLoop currentYear (some m) rest total

/-- Embeds `ExpenseTracker.get_total_expenses` (`src/main.py:104-116`):
`currentYear` stands for `datetime.now().year`. -/
def get_total_expenses (currentYear : Int) (t : Tracker)
    (month : Option Int := none) : Except PyErr Rat :=
  totalLoop currentYear month t.expenses 0

deriving instance DecidableEq for Except

/-! ## Helper lemmas -/

lemma totalLoop_some_month (cy m : Int) (es : List Expense) (acc : Rat)
    (h : ∀ e ∈ es, (strptimeDMY e.date).isSome) :
    totalLoop cy (some m) es acc = .ok acc := by
  induction es generalizing acc with
  | nil => rfl
  | cons e rest ih =>
      obtain ⟨d, hd⟩ := Option.isSome_iff_exists.mp (h e (by simp))
      simp only [totalLoop, hd, pyEqDatetimeInt, Bool.and_false, if_false]
      exact ih acc fun x hx => h x (List.mem_cons_of_mem _ hx)

lemma totalLoop_no_month (cy : Int) (es : List Expense) (acc : Rat)
    (h : ∀ e ∈ es, (strptimeDMY e.date).isSome) :
    totalLoop cy none es acc = .ok (acc + (es.map Expense.amount).sum) := by
  induction es generalizing acc with
  | nil => simp [totalLoop]
  | cons e rest ih =>
      obtain ⟨d, hd⟩ := Option.isSome_iff_exists.mp (h e (by simp))
      simp only [totalLoop, hd, List.map_cons, List.sum_cons]
      rw [ih (acc + e.amount) fun x hx => h x (List.mem_cons_of_mem _ hx)]
      ring_nf

lemma totalLoop_bad_date (cy : Int) (month : Option Int) (es : List Expense)
    (acc : Rat) (h : ∃ e ∈ es, strptimeDMY e.date = none) :
    totalLoop cy month es acc = .error .strptimeValueError := by
  induction es generalizing acc with
  | nil => simp at h
  | cons e rest ih =>
      cases hd : strptimeDMY e.date with
      | none => cases month <;> simp [totalLoop, hd]
      | some d =>
          have hrest : ∃ x ∈ rest, strptimeDMY x.date = none := by
            rcases h with ⟨x, hx, hxn⟩
            rcases List.mem_cons.mp hx with rfl | hx
            · exact absurd hxn (by simp [hd])
            · exact ⟨x, hx, hxn⟩
          cases month with
          | none => simpa only [totalLoop, hd] using ih (acc + e.amount) hrest
          | some m =>
              simp only [totalLoop, hd, pyEqDatetimeInt, Bool.and_false,
                if_false]
              exact ih acc hrest

lemma deleteFirst_eq_none (eid : Int) (es : List Expense)
    (h : ∀ e ∈ es, e.id ≠ eid) : deleteFirst eid es = none := by
  induction es with
  | nil => rfl
  | cons e rest ih =>
      simp only [deleteFirst, if_neg (h e (by simp))]
      rw [ih fun x hx => h x (List.mem_cons_of_mem _ hx)]
      rfl

/-! ## Claims about `get_total_expenses` -/

/-- C1: with a supplied month, a record is counted only when its parsed
month equals the given month and the parsed `datetime` object compares
equal to the current-year integer; that cross-type comparison is always
`False` in Python, so the monthly total is `0.0` for every month. -/
theorem claim_C1_month_total_always_zero (cy m : Int) (t : Tracker)
    (h : ∀ e ∈ t.expenses, (strptimeDMY e.date).isSome) :
    get_total_expenses cy t (some m) = .ok 0 :=
  totalLoop_some_month cy m t.expenses 0 h

/-- C1 witness: a record dated March 2026 is still excluded from the March
total computed in 2026. -/
theorem claim_C1_month_total_always_zero_witness :
    (∀ e ∈ ({ expenses := [⟨1, "Coffee", "morning", 3, "15-03-2026"⟩],
              file := .missing } : Tracker).expenses,
        (strptimeDMY e.date).isSome)
    ∧ get_total_expenses 2026
        { expenses := [⟨1, "Coffee", "morning", 3, "15-03-2026"⟩],
          file := .missing } (some 3) = .ok 0 :=
  ⟨by decide, claim_C1_month_total_always_zero 2026 3 _ (by decide)⟩

/-- C7: with no month argument, `get_total_expenses` returns the sum of all
records' amounts, with no filtering by date or year. -/
theorem claim_C7_total_no_filter (cy : Int) (t : Tracker)
    (h : ∀ e ∈ t.expenses, (strptimeDMY e.date).isSome) :
    get_total_expenses cy t = .ok ((t.expenses.map Expense.amount).sum) := by
  simpa using totalLoop_no_month cy t.expenses 0 h

/-- C7 witness: two records dated in different years both count; the total
is the plain sum of the amounts. -/
theorem claim_C7_total_no_filter_witness :
    (∀ e ∈ ({ expenses := [⟨1, "a", "b", 3, "15-03-1999"⟩,
        ⟨2, "c", "d", 4, "01-04-2026"⟩], file := .missing } : Tracker).expenses,
        (strptimeDMY e.date).isSome)
    ∧ get_total_expenses 2026
        { expenses := [⟨1, "a", "b", 3, "15-03-1999"⟩,
          ⟨2, "c", "d", 4, "01-04-2026"⟩], file := .missing } = .ok 7 :=
  ⟨by decide, by
    have h := claim_C7_total_no_filter 2026
      { expenses := [⟨1, "a", "b", 3, "15-03-1999"⟩,
        ⟨2, "c", "d", 4, "01-04-2026"⟩], file := .missing } (by decide)
    simp only [List.map_cons, List.map_nil, List.sum_cons, List.sum_nil] at h
    norm_num at h
    exact h⟩

/-- C10: `get_total_expenses` parses every record's date whatever the month
argument is, so it raises `ValueError` exactly when some record's date does
not parse as `DD-MM-YYYY`, and under the precondition that every date
parses it never raises. -/
theorem claim_C10_parse_all_dates (cy : Int) (month : Option Int)
    (t : Tracker) :
    ((∃ e ∈ t.expenses, strptimeDMY e.date = none) →
      get_total_expenses cy t month = .error .strptimeValueError)
    ∧ ((∀ e ∈ t.expenses, (strptimeDMY e.date).isSome) →
      ∃ v, get_total_expenses cy t month = .ok v) := by
  constructor
  · exact fun h => totalLoop_bad_date cy month t.expenses 0 h
  · intro h
    cases month with
    | none => exact ⟨_, totalLoop_no_month cy t.expenses 0 h⟩
    | some m => exact ⟨0, totalLoop_some_month cy m t.expenses 0 h⟩

/-- C10 witness: a malformed date makes even the unfiltered total raise. -/
theorem claim_C10_parse_all_dates_witness :
    (∃ e ∈ ({ expenses := [⟨1, "a", "b", 3, "oops"⟩], file := .missing } :
        Tracker).expenses, strptimeDMY e.date = none)
    ∧ get_total_expenses 2026
        { expenses := [⟨1, "a", "b", 3, "oops"⟩], file := .missing }
        = .error .strptimeValueError :=
  ⟨by decide,
    (claim_C10_parse_all_dates 2026 none
      { expenses := [⟨1, "a", "b", 3, "oops"⟩], file := .missing }).1
      (by decide)⟩

/-! ## Claims about `add_expense` and `delete_expense` errors -/

/-- C3: adding with a non-positive amount raises `ValueError` and leaves the
whole tracker state (collection and file) untouched. -/
theorem claim_C3_add_invalid_amount (today : String) (t : Tracker)
    (title description : String) (a : Rat) (ha : a ≤ 0) :
    add_expense today t title description a = (.error .invalidAmount, t) := by
  simp [add_expense, ha]

/-- C3 witness: adding an expense of amount `-5` to a one-record tracker
fails and changes nothing. -/
theorem claim_C3_add_invalid_amount_witness :
    ((-5 : Rat) ≤ 0)
    ∧ add_expense "05-10-2026"
        { expenses := [⟨1, "a", "b", 3, "15-03-2026"⟩], file := .missing }
        "x" "y" (-5)
      = (.error .invalidAmount,
        { expenses := [⟨1, "a", "b", 3, "15-03-2026"⟩], file := .missing }) :=
  ⟨by norm_num,
    claim_C3_add_invalid_amount "05-10-2026"
      { expenses := [⟨1, "a", "b", 3, "15-03-2026"⟩], file := .missing }
      "x" "y" (-5) (by norm_num)⟩

/-- C8: deleting an id that no record carries returns `False`, raises
nothing, and leaves the collection and the file untouched. -/
theorem claim_C8_delete_missing_id (t : Tracker) (eid : Int)
    (h : ∀ e ∈ t.expenses, e.id ≠ eid) :
    delete_expense t eid = (false, t) := by
  simp [delete_expense, deleteFirst_eq_none eid t.expenses h]

/-- C8 witness: deleting id `7` from a tracker holding only id `1` returns
`False` and changes nothing. -/
theorem claim_C8_delete_missing_id_witness :
    (∀ e ∈ ({ expenses := [⟨1, "a", "b", 3, "15-03-2026"⟩],
              file := .missing } : Tracker).expenses, e.id ≠ 7)
    ∧ delete_expense
        { expenses := [⟨1, "a", "b", 3, "15-03-2026"⟩], file := .missing } 7
      = (false,
        { expenses := [⟨1, "a", "b", 3, "15-03-2026"⟩], file := .missing }) :=
  ⟨by decide,
    claim_C8_delete_missing_id
      { expenses := [⟨1, "a", "b", 3, "15-03-2026"⟩], file := .missing } 7
      (by decide)⟩

/-! ## Claims about `update_expense` -/

/-- What the collection looks like after the `update_expense` loop has
assigned title and description to the first matching record but nothing
else: the mutation that survives a mid-call `ValueError`. -/
def applyFirstMatch (eid : Int) (title description : Option String) :
    List Expense → List Expense
  | [] => []
  | e :: rest =>
      if e.id = eid then applyTitleDescription title description e :: rest
      else e :: applyFirstMatch eid title description rest

lemma updateLoop_invalid_amount (eid : Int) (ti de : Option String) (a : Rat)
    (ha : a ≤ 0) (es : List Expense) (h : ∃ e ∈ es, e.id = eid) :
    updateLoop eid ti de (some a) es =
      (.error .invalidAmount, applyFirstMatch eid ti de es) := by
  induction es with
  | nil => simp at h
  | cons e rest ih =>
      by_cases he : e.id = eid
      · simp [updateLoop, applyFirstMatch, he, ha]
      · have hrest : ∃ x ∈ rest, x.id = eid := by
          rcases h with ⟨x, hx, hxe⟩
          rcases List.mem_cons.mp hx with rfl | hx
          · exact absurd hxe he
          · exact ⟨x, hx, hxe⟩
        simp [updateLoop, applyFirstMatch, he, ih hrest]

/-- C2: updating an existing record with a non-positive amount raises
`ValueError`; the title and description supplied in the same call are
already applied to the in-memory record and are not rolled back, while the
backing file is untouched because `save_expenses` is never reached. -/
theorem claim_C2_update_invalid_amount (t : Tracker) (eid : Int)
    (ti de : Option String) (a : Rat) (ha : a ≤ 0)
    (h : ∃ e ∈ t.expenses, e.id = eid) :
    update_expense t eid ti de (some a) =
      (.error .invalidAmount,
        { expenses := applyFirstMatch eid ti de t.expenses,
          file := t.file }) := by
  simp [update_expense, updateLoop_invalid_amount eid ti de a ha t.expenses h]

/-- C2 witness: `update_expense(1, title="new", amount=-5)` on a one-record
tracker raises, the new title sticks in memory, and the file (still
holding the saved old record) is unchanged. -/
theorem claim_C2_update_invalid_amount_witness :
    ((-5 : Rat) ≤ 0
      ∧ ∃ e ∈ ({ expenses := [⟨1, "old", "odesc", 3, "15-03-2026"⟩],
                 file := .records [⟨some 1, some "old", some "odesc",
                                    some 3, some "15-03-2026"⟩] } :
          Tracker).expenses, e.id = 1)
    ∧ update_expense
        { expenses := [⟨1, "old", "odesc", 3, "15-03-2026"⟩],
          file := .records [⟨some 1, some "old", some "odesc", some 3,
            some "15-03-2026"⟩] } 1 (some "new") none (some (-5))
      = (.error .invalidAmount,
        { expenses := [⟨1, "new", "odesc", 3, "15-03-2026"⟩],
          file := .records [⟨some 1, some "old", some "odesc", some 3,
            some "15-03-2026"⟩] }) :=
  ⟨⟨by norm_num, by decide⟩, by
    rw [claim_C2_update_invalid_amount
      { expenses := [⟨1, "old", "odesc", 3, "15-03-2026"⟩],
        file := .records [⟨some 1, some "old", some "odesc", some 3,
          some "15-03-2026"⟩] } 1 (some "new") none (-5) (by norm_num)
      (by decide)]
    rfl⟩

/-! ## Claims about `load_expenses` and the round trip -/

lemma from_dict_eq_none_of_missing (today : String) (d : RawDict)
    (h : d.id = none ∨ d.title = none ∨ d.description = none
      ∨ d.amount = none ∨ d.date = none) :
    Expense.from_dict today d = none := by
  obtain ⟨i, ti, de, a, dt⟩ := d
  cases i <;> cases ti <;> cases de <;> cases a <;> cases dt <;>
    simp_all [Expense.from_dict]

lemma decodeAll_eq_none (today : String) (ds : List RawDict)
    (h : ∃ d ∈ ds, Expense.from_dict today d = none) :
    decodeAll today ds = none := by
  induction ds with
  | nil => simp at h
  | cons d rest ih =>
      cases hd : Expense.from_dict today d with
      | none => simp [decodeAll, hd]
      | some e =>
          have hrest : ∃ x ∈ rest, Expense.from_dict today x = none := by
            rcases h with ⟨x, hx, hxn⟩
            rcases List.mem_cons.mp hx with rfl | hx
            · exact absurd hxn (by simp [hd])
            · exact ⟨x, hx, hxn⟩
          simp [decodeAll, hd, ih hrest]

/-- C6: loading never surfaces an error: a missing file, a syntactically
invalid file, and a file holding a record that lacks one of the required
keys all yield the empty collection, with no partial recovery of the
well-formed records. -/
theorem claim_C6_load_fail_open (today : String) (ds : List RawDict) :
    load_expenses today .missing = []
    ∧ load_expenses today .malformed = []
    ∧ ((∃ d ∈ ds, d.id = none ∨ d.title = none ∨ d.description = none
        ∨ d.amount = none ∨ d.date = none) →
      load_expenses today (.records ds) = []) := by
  refine ⟨rfl, rfl, fun h => ?_⟩
  have hnone : decodeAll today ds = none := by
    rcases h with ⟨d, hd, hmiss⟩
    exact decodeAll_eq_none today ds
      ⟨d, hd, from_dict_eq_none_of_missing today d hmiss⟩
  simp [load_expenses, hnone]

/-- C6 witness: a file with one intact record and one record missing its
`amount` key loads as the empty collection — the intact record is not
recovered. -/
theorem claim_C6_load_fail_open_witness :
    (∃ d ∈ [(⟨some 1, some "t", some "d", some 3, some "15-03-2026"⟩ :
        RawDict), ⟨some 2, some "u", some "e", none, some "16-03-2026"⟩],
      d.id = none ∨ d.title = none ∨ d.description = none
        ∨ d.amount = none ∨ d.date = none)
    ∧ load_expenses "05-10-2026" (.records
        [⟨some 1, some "t", some "d", some 3, some "15-03-2026"⟩,
         ⟨some 2, some "u", some "e", none, some "16-03-2026"⟩]) = [] :=
  ⟨by decide,
    (claim_C6_load_fail_open "05-10-2026"
      [⟨some 1, some "t", some "d", some 3, some "15-03-2026"⟩,
       ⟨some 2, some "u", some "e", none, some "16-03-2026"⟩]).2.2
      (by decide)⟩

lemma strptimeDMY_empty : strptimeDMY "" = none := by decide

lemma date_ne_empty_of_parses {s : String}
    (h : (strptimeDMY s).isSome) : s ≠ "" := by
  rintro rfl
  simp [strptimeDMY_empty] at h

lemma from_dict_to_dict (today : String) (e : Expense) (h : e.date ≠ "") :
    Expense.from_dict today e.to_dict = some e := by
  simp [Expense.from_dict, Expense.to_dict, Expense.init, pyStrOr, h]

lemma decodeAll_map_to_dict (today : String) (es : List Expense)
    (h : ∀ e ∈ es, e.date ≠ "") :
    decodeAll today (es.map Expense.to_dict) = some es := by
  induction es with
  | nil => rfl
  | cons e rest ih =>
      simp [decodeAll, from_dict_to_dict today e (h e (by simp)),
        ih fun x hx => h x (List.mem_cons_of_mem _ hx)]

/-- C5: saving a collection of well-formed records (dates in `DD-MM-YYYY`
form) and loading the resulting file reproduces the same sequence of
records, with id, title, description, amount and date intact. -/
theorem claim_C5_save_load_round_trip (today : String) (t : Tracker)
    (h : ∀ e ∈ t.expenses, (strptimeDMY e.date).isSome) :
    load_expenses today (save_expenses t).file = t.expenses := by
  have h' : ∀ e ∈ t.expenses, e.date ≠ "" :=
    fun e he => date_ne_empty_of_parses (h e he)
  simp [load_expenses, save_expenses,
    decodeAll_map_to_dict today t.expenses h']

/-- C5 witness: a two-record collection survives a save/load round trip
unchanged. -/
theorem claim_C5_save_load_round_trip_witness :
    (∀ e ∈ ({ expenses := [⟨1, "a", "b", 3, "15-03-2026"⟩,
              ⟨2, "c", "d", 4, "01-04-1999"⟩],
              file := .missing } : Tracker).expenses,
      (strptimeDMY e.date).isSome)
    ∧ load_expenses "05-10-2026"
        (save_expenses { expenses := [⟨1, "a", "b", 3, "15-03-2026"⟩,
          ⟨2, "c", "d", 4, "01-04-1999"⟩], file := .missing }).file
      = [⟨1, "a", "b", 3, "15-03-2026"⟩, ⟨2, "c", "d", 4, "01-04-1999"⟩] :=
  ⟨by decide,
    claim_C5_save_load_round_trip "05-10-2026"
      { expenses := [⟨1, "a", "b", 3, "15-03-2026"⟩,
        ⟨2, "c", "d", 4, "01-04-1999"⟩], file := .missing } (by decide)⟩

/-! ## Claims about the date default of `Expense` -/

/-- C9 counterexample: a stored record whose `date` key holds the empty
string is not reconstructed verbatim — `date or datetime.now()...` treats
the empty string as falsy, so the current date replaces it. -/
theorem claim_C9_counterexample :
    Expense.from_dict "05-10-2026"
      { id := some 1, title := some "t", description := some "d",
        amount := some 1, date := some "" }
      = some ⟨1, "t", "d", 1, "05-10-2026"⟩
    ∧ ("05-10-2026" : String) ≠ "" := by decide

/-- C9 (amended): a record reconstructed from storage keeps the stored date
verbatim whenever that string is non-empty; an empty stored date string
falls back to the current date, exactly as an unsupplied date does at
construction. -/
theorem claim_C9_date_verbatim (today : String) (i : Int) (ti de : String)
    (a : Rat) :
    (∀ s : String, s ≠ "" →
      Expense.from_dict today
        { id := some i, title := some ti, description := some de,
          amount := some a, date := some s } = some ⟨i, ti, de, a, s⟩)
    ∧ Expense.from_dict today
        { id := some i, title := some ti, description := some de,
          amount := some a, date := some "" } = some ⟨i, ti, de, a, today⟩
    ∧ Expense.init today i ti de a none = ⟨i, ti, de, a, today⟩ := by
  refine ⟨fun s hs => ?_, ?_, rfl⟩ <;>
    simp [Expense.from_dict, Expense.init, pyStrOr, *]

/-- C9 witness: a non-empty stored date comes back verbatim. -/
theorem claim_C9_date_verbatim_witness :
    (("15-03-2026" : String) ≠ "")
    ∧ Expense.from_dict "05-10-2026"
        { id := some 1, title := some "t", description := some "d",
          amount := some 1, date := some "15-03-2026" }
      = some ⟨1, "t", "d", 1, "15-03-2026"⟩ :=
  ⟨by decide,
    (claim_C9_date_verbatim "05-10-2026" 1 "t" "d" 1).1 "15-03-2026"
      (by decide)⟩

/-! ## Claims about id assignment -/

lemma foldl_max_init_le (a : Int) (l : List Expense) :
    a ≤ l.foldl (fun m x => max m x.id) a := by
  induction l generalizing a with
  | nil => exact le_refl a
  | cons x xs ih => exact le_trans (le_max_left a x.id) (ih (max a x.id))

lemma le_foldl_max_of_mem {e : Expense} {l : List Expense} (a : Int)
    (h : e ∈ l) : e.id ≤ l.foldl (fun m x => max m x.id) a := by
  induction l generalizing a with
  | nil => simp at h
  | cons x xs ih =>
      rcases List.mem_cons.mp h with rfl | h
      · exact le_trans (le_max_right a e.id) (foldl_max_init_le _ xs)
      · exact ih (max a x.id) h

/-- A fresh id is strictly greater than the id of every live record. -/
lemma lt_get_next_id {e : Expense} {es : List Expense} (h : e ∈ es) :
    e.id < get_next_id es := by
  cases es with
  | nil => simp at h
  | cons x xs =>
      have hle : e.id ≤ xs.foldl (fun m y => max m y.id) x.id := by
        rcases List.mem_cons.mp h with rfl | h
        · exact foldl_max_init_le _ xs
        · exact le_foldl_max_of_mem _ h
      simp only [get_next_id]
      exact lt_of_le_of_lt hle (lt_add_one _)

lemma foldl_max_attained (a : Int) (l : List Expense) :
    l.foldl (fun m x => max m x.id) a = a
    ∨ ∃ e ∈ l, l.foldl (fun m x => max m x.id) a = e.id := by
  induction l generalizing a with
  | nil => exact Or.inl rfl
  | cons x xs ih =>
      rcases ih (max a x.id) with h | ⟨e, he, hEq⟩
      · rcases max_choice a x.id with hm | hm
        · left
          simp only [List.foldl_cons]
          rw [h, hm]
        · right
          exact ⟨x, by simp, by simp only [List.foldl_cons]; rw [h, hm]⟩
      · right
        exact ⟨e, List.mem_cons_of_mem _ he,
          by simp only [List.foldl_cons]; exact hEq⟩

/-- On a nonempty collection the fresh id is the id of some live record
plus one: `get_next_id` really is `max(existing ids) + 1`. -/
lemma get_next_id_attained (es : List Expense) (h : es ≠ []) :
    ∃ e ∈ es, get_next_id es = e.id + 1 := by
  cases es with
  | nil => exact absurd rfl h
  | cons x xs =>
      rcases foldl_max_attained x.id xs with hEq | ⟨e, he, hEq⟩
      · exact ⟨x, by simp, by simp only [get_next_id]; rw [hEq]⟩
      · exact ⟨e, List.mem_cons_of_mem _ he,
          by simp only [get_next_id]; rw [hEq]⟩

lemma add_preserves_nodup (today ti de : String) (a : Rat) (t : Tracker)
    (hu : (t.expenses.map Expense.id).Nodup) :
    ((add_expense today t ti de a).2.expenses.map Expense.id).Nodup := by
  by_cases ha : a ≤ 0
  · simpa [add_expense, ha] using hu
  · have hnotmem : get_next_id t.expenses ∉ t.expenses.map Expense.id := by
      intro hmem
      rcases List.mem_map.mp hmem with ⟨e, he, hEq⟩
      exact absurd hEq (ne_of_lt (lt_get_next_id he))
    simp only [add_expense, if_neg ha, save_expenses, Expense.init,
      List.map_append, List.map_cons, List.map_nil]
    exact hu.append (List.nodup_singleton _)
      fun x hx hmem => hnotmem (List.mem_singleton.mp hmem ▸ hx)

lemma deleteFirst_sublist (eid : Int) :
    ∀ {es es' : List Expense}, deleteFirst eid es = some es' →
      es'.Sublist es := by
  intro es
  induction es with
  | nil => intro es' h; simp [deleteFirst] at h
  | cons e rest ih =>
      intro es' h
      by_cases he : e.id = eid
      · rw [deleteFirst, if_pos he] at h
        cases h
        exact List.sublist_cons_self e rest
      · rw [deleteFirst, if_neg he] at h
        cases hrec : deleteFirst eid rest with
        | none => rw [hrec] at h; cases h
        | some rest' =>
            rw [hrec] at h
            cases h
            exact (ih hrec).cons₂ e

lemma delete_preserves_nodup (t : Tracker) (eid : Int)
    (hu : (t.expenses.map Expense.id).Nodup) :
    ((delete_expense t eid).2.expenses.map Expense.id).Nodup := by
  unfold delete_expense
  cases hdf : deleteFirst eid t.expenses with
  | none => simpa using hu
  | some es' =>
      simp only [save_expenses]
      exact hu.sublist ((deleteFirst_sublist eid hdf).map Expense.id)

/-- C4 counterexample to the claim as stated: starting from an empty
tracker, an add assigns id `1`, deleting id `1` succeeds, and the very next
add assigns id `1` again — an id removed by deletion is reassigned, and the
ids produced by the successive adds (`1`, then `1` again) are not strictly
increasing. -/
theorem claim_C4_counterexample :
    (add_expense "05-10-2026" ⟨[], .missing⟩ "Coffee" "morning" 1).1
      = .ok ⟨1, "Coffee", "morning", 1, "05-10-2026"⟩
    ∧ (delete_expense
        (add_expense "05-10-2026" ⟨[], .missing⟩ "Coffee" "morning" 1).2 1).1
      = true
    ∧ (add_expense "05-10-2026"
        (delete_expense
          (add_expense "05-10-2026" ⟨[], .missing⟩ "Coffee" "morning" 1).2
          1).2 "Pen" "office" 2).1
      = .ok ⟨1, "Pen", "office", 2, "05-10-2026"⟩ := by
  decide

/-- C4 (amended): starting from any collection with unique ids, add and
delete preserve uniqueness of the live ids; the next assigned id is always
`max(existing ids) + 1`, or `1` if the collection is empty, so every add
assigns an id strictly greater than every live id and two successive adds
with no intervening deletion assign strictly increasing ids.  (An id
removed by deletion can, however, be assigned again when it exceeds every
remaining id.) -/
theorem claim_C4_id_invariants (today today2 ti de ti2 de2 : String)
    (a a2 : Rat) (t : Tracker) (eid : Int)
    (hu : (t.expenses.map Expense.id).Nodup) :
    ((add_expense today t ti de a).2.expenses.map Expense.id).Nodup
    ∧ ((delete_expense t eid).2.expenses.map Expense.id).Nodup
    ∧ (t.expenses = [] → get_next_id t.expenses = 1)
    ∧ (∀ e ∈ t.expenses, e.id < get_next_id t.expenses)
    ∧ (t.expenses ≠ [] → ∃ e ∈ t.expenses, get_next_id t.expenses = e.id + 1)
    ∧ (0 < a → 0 < a2 →
        ∃ e1 e2, (add_expense today t ti de a).1 = .ok e1
          ∧ (add_expense today2 (add_expense today t ti de a).2
              ti2 de2 a2).1 = .ok e2
          ∧ e1.id < e2.id) := by
  refine ⟨add_preserves_nodup today ti de a t hu,
    delete_preserves_nodup t eid hu,
    fun h => by rw [h]; rfl,
    fun e he => lt_get_next_id he,
    get_next_id_attained t.expenses,
    fun ha ha2 => ?_⟩
  have ha' : ¬ a ≤ 0 := not_le.mpr ha
  have ha2' : ¬ a2 ≤ 0 := not_le.mpr ha2
  simp only [add_expense, if_neg ha', if_neg ha2', save_expenses]
  refine ⟨_, _, rfl, rfl, ?_⟩
  exact lt_get_next_id (List.mem_append_right _ (List.mem_singleton_self _))

/-- C4 witness: the amended invariants at a concrete one-record tracker. -/
theorem claim_C4_id_invariants_witness :
    (([⟨3, "a", "b", 1, "15-03-2026"⟩] : List Expense).map
        Expense.id).Nodup
    ∧ (((add_expense "05-10-2026"
          { expenses := [⟨3, "a", "b", 1, "15-03-2026"⟩], file := .missing }
          "x" "y" 2).2.expenses.map Expense.id).Nodup
      ∧ ((delete_expense
          { expenses := [⟨3, "a", "b", 1, "15-03-2026"⟩], file := .missing }
          3).2.expenses.map Expense.id).Nodup
      ∧ (([⟨3, "a", "b", 1, "15-03-2026"⟩] : List Expense) = [] →
          get_next_id [⟨3, "a", "b", 1, "15-03-2026"⟩] = 1)
      ∧ (∀ e ∈ ([⟨3, "a", "b", 1, "15-03-2026"⟩] : List Expense),
          e.id < get_next_id [⟨3, "a", "b", 1, "15-03-2026"⟩])
      ∧ (([⟨3, "a", "b", 1, "15-03-2026"⟩] : List Expense) ≠ [] →
          ∃ e ∈ ([⟨3, "a", "b", 1, "15-03-2026"⟩] : List Expense),
            get_next_id [⟨3, "a", "b", 1, "15-03-2026"⟩] = e.id + 1)
      ∧ ((0 : Rat) < 2 → (0 : Rat) < 5 →
          ∃ e1 e2, (add_expense "05-10-2026"
              { expenses := [⟨3, "a", "b", 1, "15-03-2026"⟩],
                file := .missing } "x" "y" 2).1 = .ok e1
            ∧ (add_expense "06-10-2026"
                (add_expense "05-10-2026"
                  { expenses := [⟨3, "a", "b", 1, "15-03-2026"⟩],
                    file := .missing } "x" "y" 2).2 "z" "w" 5).1 = .ok e2
            ∧ e1.id < e2.id)) :=
  ⟨by decide,
    claim_C4_id_invariants "05-10-2026" "06-10-2026" "x" "y" "z" "w" 2 5
      { expenses := [⟨3, "a", "b", 1, "15-03-2026"⟩], file := .missing } 3
      (by decide)⟩

end FinanceTracker
